import Mathlib

/-!
Verification of the `adapt-authoring-adaptframework` import pipeline.

The definitions below are shallow embeddings of the JavaScript source in
`lib/AdaptFrameworkImport.js`, `lib/AdaptFrameworkUtils.js` and
`lib/utils/inferBuildAction.js` / `getPluginUpdateStatus.js`.  JavaScript
objects used as string-keyed maps are modelled as insertion-ordered
association lists (faithful for the non-numeric id strings this system
uses); JavaScript exceptions are modelled with `Except` / `Option` error
components; the stores (content, plugin registry, tags, assets) are
modelled by the trace of calls issued to them.
-/

namespace AdaptFramework

/-! ## Content hierarchy sort (`AdaptFrameworkImport#getSortedData`)

The importer stores content objects keyed by `_id`; `getSortedData` groups
them by `_parentId` into `hierarchy`, then repeatedly expands the current
level breadth-first, removing consumed parent keys from the `toSort`
worklist via `toSort.splice(toSort.indexOf(_id), 1)`.
-/

/-- A content object as consumed by `getSortedData`: only `_id` and
`_parentId` are read. -/
structure ContentObject where
  _id : String
  _parentId : String
deriving DecidableEq, Repr

/-- The `hierarchy` value is a JavaScript object mapping a parent id to the array of
its children's ids; modelled as an insertion-ordered association list. -/
abbrev HierMap := List (String × List String)

/-- One step of the `reduce` building `hierarchy`:
`Object.assign(h, { [c._parentId]: [...(h[c._parentId] ?? []), c._id] })`.
An existing key keeps its position; a new key is appended (JS object key
insertion order for non-numeric string keys). -/
def hAdd : HierMap → String → String → HierMap
  | [], pid, cid => [(pid, [cid])]
  | (k, v) :: rest, pid, cid =>
    if k = pid then (k, v ++ [cid]) :: rest
    else (k, v) :: hAdd rest pid cid

/-- Lookup `hierarchy[_id]`. -/
def hGet (h : HierMap) (k : String) : Option (List String) :=
  (h.find? (fun p => p.1 = k)).map (fun p => p.2)

/-- Models `Object.values(this.contentJson.contentObjects).reduce(...)`. -/
def buildHierarchy (objs : List ContentObject) : HierMap :=
  objs.foldl (fun h c => hAdd h c._parentId c._id) []

/-- Models `toSort.splice(toSort.indexOf(_id), 1)`: if `_id` occurs, its first
occurrence is removed; otherwise `indexOf` yields `-1` and
`splice(-1, 1)` removes the LAST element of a non-empty array (and is a
no-op on an empty one). -/
def spliceRemove (ts : List String) (x : String) : List String :=
  if x ∈ ts then ts.erase x else ts.dropLast

/-- The body of `sorted[sorted.length - 1].forEach(...)`: collect the
children of each id of the current level into `newLevel` and remove each
id from the worklist with `spliceRemove`. -/
def processLevel (h : HierMap) : List String → List String → List String × List String
  | [], ts => ([], ts)
  | id :: rest, ts =>
    let children := (hGet h id).getD []
    let r := processLevel h rest (spliceRemove ts id)
    (children ++ r.1, r.2)

/-- The structural-integrity error `FW_IMPORT_UNEXPECTED_STRUCTURE`. -/
inductive SortError where
  | unexpectedStructure
deriving DecidableEq, Repr

theorem spliceRemove_length_le (ts : List String) (x : String) :
    (spliceRemove ts x).length ≤ ts.length := by
  unfold spliceRemove
  split
  · exact ts.length_erase_le x
  · exact ts.length_dropLast ▸ Nat.sub_le _ _

theorem spliceRemove_length_lt (ts : List String) (x : String) (h : ts ≠ []) :
    (spliceRemove ts x).length < ts.length := by
  have hpos : 0 < ts.length := List.length_pos.mpr h
  unfold spliceRemove
  split
  · next hmem =>
    rw [List.length_erase_of_mem hmem]
    omega
  · rw [List.length_dropLast]
    omega

theorem processLevel_snd_length_le (h : HierMap) (lvl ts : List String) :
    (processLevel h lvl ts).2.length ≤ ts.length := by
  induction lvl generalizing ts with
  | nil => simp [processLevel]
  | cons id rest ih =>
    simp only [processLevel]
    exact le_trans (ih (spliceRemove ts id)) (spliceRemove_length_le ts id)

theorem processLevel_snd_length_lt (h : HierMap) (id : String) (rest ts : List String)
    (hts : ts ≠ []) :
    (processLevel h (id :: rest) ts).2.length < ts.length := by
  simp only [processLevel]
  exact lt_of_le_of_lt (processLevel_snd_length_le h rest (spliceRemove ts id))
    (spliceRemove_length_lt ts id hts)

theorem processLevel_nil_fst (h : HierMap) (ts : List String) :
    (processLevel h [] ts).1 = [] := rfl

/-- The `while (toSort.length)` loop of `getSortedData`, returning the
levels pushed after the initial course level.  Total: each iteration with
a non-empty `newLevel` strictly shrinks the worklist (the first id of the
current level always removes one worklist entry — the id itself, or the
last entry via the `splice(-1, 1)` behaviour). -/
def sortLoop (h : HierMap) (lastLevel ts : List String) :
    Except SortError (List (List String)) :=
  if hts : ts = [] then .ok []
  else if hnl : (processLevel h lastLevel ts).1 = [] then .error .unexpectedStructure
  else
    match sortLoop h (processLevel h lastLevel ts).1 (processLevel h lastLevel ts).2 with
    | .ok rest => .ok ((processLevel h lastLevel ts).1 :: rest)
    | .error e => .error e
termination_by ts.length
decreasing_by
  have hll : lastLevel ≠ [] := by
    intro hcon
    subst hcon
    exact hnl (processLevel_nil_fst h ts)
  cases lastLevel with
  | nil => exact absurd rfl hll
  | cons id rest => exact processLevel_snd_length_lt h id rest ts hts

theorem sortLoop_nil (h : HierMap) (lastLevel : List String) :
    sortLoop h lastLevel [] = .ok [] := by
  rw [sortLoop.eq_def]
  simp

theorem sortLoop_cons (h : HierMap) (lastLevel ts : List String) (hts : ts ≠ []) :
    sortLoop h lastLevel ts =
      if (processLevel h lastLevel ts).1 = [] then .error .unexpectedStructure
      else
        match sortLoop h (processLevel h lastLevel ts).1 (processLevel h lastLevel ts).2 with
        | .ok rest => .ok ((processLevel h lastLevel ts).1 :: rest)
        | .error e => .error e := by
  rw [sortLoop.eq_def]
  simp [hts]

/-- Models `getSortedData`: builds `hierarchy`, runs the level loop starting from
`[[courseId]]`, and returns `{ sorted: sorted.slice(1), hierarchy }`. -/
def getSortedData (courseId : String) (objs : List ContentObject) :
    Except SortError (List (List String) × HierMap) :=
  let h := buildHierarchy objs
  match sortLoop h [courseId] (h.map (fun p => p.1)) with
  | .ok sorted => .ok (sorted, h)
  | .error e => .error e

/-- Step-indexed version of the `while` loop: `fuel` bounds the number of
iterations, `none` meaning the loop would still be running. -/
def sortLoopF (h : HierMap) : Nat → List String → List String →
    Option (Except SortError (List (List String)))
  | fuel, lastLevel, ts =>
    if ts = [] then some (.ok [])
    else
      match fuel with
      | 0 => none
      | fuel + 1 =>
        let p := processLevel h lastLevel ts
        if p.1 = [] then some (.error .unexpectedStructure)
        else (sortLoopF h fuel p.1 p.2).map (fun r => r.map (fun rest => p.1 :: rest))

/-- The step-indexed loop stabilises within `ts.length` iterations and
computes `sortLoop`: the while loop always terminates. -/
theorem sortLoopF_eq_sortLoop (h : HierMap) :
    ∀ fuel lastLevel ts, ts.length ≤ fuel →
      sortLoopF h fuel lastLevel ts = some (sortLoop h lastLevel ts) := by
  intro fuel
  induction fuel with
  | zero =>
    intro lastLevel ts hle
    have : ts = [] := List.length_eq_zero.mp (Nat.le_zero.mp hle)
    subst this
    simp [sortLoopF, sortLoop_nil]
  | succ n ih =>
    intro lastLevel ts hle
    by_cases hts : ts = []
    · subst hts
      simp [sortLoopF, sortLoop_nil]
    · rw [sortLoop_cons h lastLevel ts hts]
      simp only [sortLoopF, if_neg hts]
      by_cases hnl : (processLevel h lastLevel ts).1 = []
      · simp [hnl]
      · simp only [if_neg hnl]
        have hlt : (processLevel h lastLevel ts).2.length < ts.length := by
          have hll : lastLevel ≠ [] := by
            intro hcon
            rw [hcon] at hnl
            exact hnl (processLevel_nil_fst h ts)
          cases lastLevel with
          | nil => exact absurd rfl hll
          | cons id rest => exact processLevel_snd_length_lt h id rest ts hts
        rw [ih _ _ (by omega)]
        cases sortLoop h (processLevel h lastLevel ts).1 (processLevel h lastLevel ts).2 <;>
          simp [Except.map]

/-- Step-indexed `getSortedData`, iterating the while loop at most
`toSort.length` times. -/
def getSortedDataF (courseId : String) (objs : List ContentObject) :
    Option (Except SortError (List (List String) × HierMap)) :=
  let h := buildHierarchy objs
  (sortLoopF h (h.map (fun p => p.1)).length [courseId] (h.map (fun p => p.1))).map
    (fun r => r.map (fun sorted => (sorted, h)))

/-- Shared bridge: the step-indexed `getSortedData` stabilises within
`toSort.length` iterations at the value of the total function. -/
theorem getSortedDataF_eq (courseId : String) (objs : List ContentObject) :
    getSortedDataF courseId objs = some (getSortedData courseId objs) := by
  simp only [getSortedDataF, getSortedData]
  rw [sortLoopF_eq_sortLoop _ _ _ _ le_rfl]
  cases sortLoop (buildHierarchy objs) [courseId] ((buildHierarchy objs).map (fun p => p.1)) <;>
    simp [Except.map]

/-- The `_parentId` of the stored node with the given `_id`. -/
def parentOf (objs : List ContentObject) (id : String) : Option String :=
  (objs.find? (fun c => c._id = id)).map (fun c => c._parentId)

/-- Does the `_parentId` chain from `id` reach `courseId` within `fuel`
steps? -/
def chainReaches (objs : List ContentObject) (courseId : String) : Nat → String → Bool
  | 0, _ => false
  | fuel + 1, id =>
    if id = courseId then true
    else
      match parentOf objs id with
      | none => false
      | some p => chainReaches objs courseId fuel p

/-- A well-formed flat content set: distinct ids, none of them the course
id, and every node's `_parentId` chain terminates at the course id. -/
def WellFormed (courseId : String) (objs : List ContentObject) : Prop :=
  (objs.map (fun c => c._id)).Nodup ∧
  courseId ∉ objs.map (fun c => c._id) ∧
  ∀ c ∈ objs, chainReaches objs courseId (objs.length + 1) c._id = true

instance (courseId : String) (objs : List ContentObject) :
    Decidable (WellFormed courseId objs) := by
  unfold WellFormed
  infer_instance

/-- A content set containing an orphan: a node whose `_parentId` is
neither any node's `_id` nor the course id. -/
def HasOrphan (courseId : String) (objs : List ContentObject) : Prop :=
  ∃ c ∈ objs, c._parentId ∉ objs.map (fun o => o._id) ∧ c._parentId ≠ courseId

/-- Well-formed input on which `getSortedData` silently drops a node:
course `c`, pages `p1`/`leaf` under it, `a1` under `p1`, `b1` under `a1`. -/
def c1Objs : List ContentObject :=
  [⟨"p1", "c"⟩, ⟨"leaf", "c"⟩, ⟨"a1", "p1"⟩, ⟨"b1", "a1"⟩]

/-- Input with an orphan (`o` under the nonexistent `x`) that
`getSortedData` silently drops instead of rejecting. -/
def c2Objs : List ContentObject :=
  [⟨"p1", "c"⟩, ⟨"leaf", "c"⟩, ⟨"a1", "p1"⟩, ⟨"o", "x"⟩]

theorem getSortedData_c1Objs :
    getSortedData "c" c1Objs =
      .ok ([["p1", "leaf"], ["a1"]],
        [("c", ["p1", "leaf"]), ("p1", ["a1"]), ("a1", ["b1"])]) := by
  have hb := getSortedDataF_eq "c" c1Objs
  have hv : getSortedDataF "c" c1Objs =
      some (.ok ([["p1", "leaf"], ["a1"]],
        [("c", ["p1", "leaf"]), ("p1", ["a1"]), ("a1", ["b1"])])) := rfl
  exact Option.some.inj (hb.symm.trans hv)

theorem getSortedData_c2Objs :
    getSortedData "c" c2Objs =
      .ok ([["p1", "leaf"], ["a1"]],
        [("c", ["p1", "leaf"]), ("p1", ["a1"]), ("x", ["o"])]) := by
  have hb := getSortedDataF_eq "c" c2Objs
  have hv : getSortedDataF "c" c2Objs =
      some (.ok ([["p1", "leaf"], ["a1"]],
        [("c", ["p1", "leaf"]), ("p1", ["a1"]), ("x", ["o"])])) := rfl
  exact Option.some.inj (hb.symm.trans hv)

/-- C1: FALSE of the code — `getSortedData` is claimed to return levels
whose flattened concatenation is a permutation of the input id set for
every well-formed content set, but on the well-formed set
`p1→c, leaf→c, a1→p1, b1→a1` it succeeds while silently omitting `b1`:
processing the childless `leaf` runs `toSort.splice(toSort.indexOf('leaf'), 1)`
= `splice(-1, 1)`, which removes the unrelated worklist entry `a1`, so the
loop stops before ever emitting `b1`'s level. -/
theorem getSortedData_drops_wellformed_node :
    WellFormed "c" c1Objs ∧
    "b1" ∈ c1Objs.map (fun c => c._id) ∧
    getSortedData "c" c1Objs =
      .ok ([["p1", "leaf"], ["a1"]],
        [("c", ["p1", "leaf"]), ("p1", ["a1"]), ("a1", ["b1"])]) ∧
    "b1" ∉ [["p1", "leaf"], ["a1"]].flatten :=
  ⟨by decide, by decide, getSortedData_c1Objs, by decide⟩

/-- C2: FALSE of the code — on the content set `p1→c, leaf→c, a1→p1`
plus the orphan `o→x` (where `x` is never a node id nor the course id),
`getSortedData` is claimed to throw `FW_IMPORT_UNEXPECTED_STRUCTURE`, but
it returns successfully and silently drops `o`: the childless `leaf`
triggers `splice(-1, 1)` which removes the orphan's parent key `x` from
the worklist, so the empty-level check never fires. -/
theorem getSortedData_misses_orphan :
    HasOrphan "c" c2Objs ∧
    getSortedData "c" c2Objs =
      .ok ([["p1", "leaf"], ["a1"]],
        [("c", ["p1", "leaf"]), ("p1", ["a1"]), ("x", ["o"])]) ∧
    getSortedData "c" c2Objs ≠ .error .unexpectedStructure ∧
    "o" ∉ [["p1", "leaf"], ["a1"]].flatten := by
  refine ⟨⟨⟨"o", "x"⟩, by decide, by decide, by decide⟩, getSortedData_c2Objs, ?_, by decide⟩
  rw [getSortedData_c2Objs]
  intro hcon
  exact Except.noConfusion hcon

/-- C8: `getSortedData` terminates on every input, including cycles and
orphans: the step-indexed while loop (`getSortedDataF`, which returns
`none` when its iteration budget is exhausted with work remaining)
stabilises within `toSort.length` iterations at the value of the total
function — it always either returns a result or the structural error. -/
theorem getSortedData_terminates (courseId : String) (objs : List ContentObject) :
    getSortedDataF courseId objs = some (getSortedData courseId objs) :=
  getSortedDataF_eq courseId objs

/-! ## Semantic versions (`semver` as used by this code)

The system only ever feeds core `major.minor.patch` strings (or garbage)
to `semver`; prerelease/build suffixes never occur, so `parseSemver`
models `semver.valid` on that fragment.
-/

def digitsToNat (cs : List Char) : Nat :=
  cs.foldl (fun n c => n * 10 + (c.toNat - 48)) 0

/-- Parse one numeric identifier of a core semver (digits only, no
leading zero). -/
def parseVerNum (s : String) : Option Nat :=
  let cs := s.toList
  if cs ≠ [] ∧ cs.all Char.isDigit ∧ (cs = ['0'] ∨ cs.head? ≠ some '0')
  then some (digitsToNat cs) else none

/-- Split on `'.'` (as `String.splitOn "."`). -/
def splitOnDot (s : String) : List String :=
  (s.toList.foldr
    (fun c (acc : List (List Char)) =>
      if c = '.' then [] :: acc
      else
        match acc with
        | [] => [[c]]
        | g :: gs => (c :: g) :: gs)
    [[]]).map List.asString

/-- Models `semver.valid` / parse for core `x.y.z` versions. -/
def parseSemver (s : String) : Option (Nat × Nat × Nat) :=
  match splitOnDot s with
  | [a, b, c] =>
    match parseVerNum a, parseVerNum b, parseVerNum c with
    | some x, some y, some z => some (x, y, z)
    | _, _, _ => none
  | _ => none

/-- Models `semver.lt` on parsed core versions (lexicographic). -/
def verLt : Nat × Nat × Nat → Nat × Nat × Nat → Bool
  | (a, b, c), (x, y, z) =>
    a < x || (a = x && (b < y || (b = y && c < z)))

/-! ## `getPluginUpdateStatus` -/

deriving instance DecidableEq for Except

/-- The status codes produced by `getPluginUpdateStatus`. -/
inductive PluginStatus where
  | INVALID
  | INSTALLED
  | OLDER
  | UPDATE_BLOCKED
  | UPDATED
  | NO_CHANGE
deriving DecidableEq, Repr

/-- Models `getPluginUpdateStatus([installedVersion, importVersion], isLocalInstall, updatePlugins)`
(textually identical in `AdaptFrameworkUtils` and `lib/utils`).  `none`
models a JS `undefined` slot; `semver.lt`/`semver.gt` throw a `TypeError`
when the installed version is truthy but not valid semver, modelled by
`Except.error ()`. -/
def getPluginUpdateStatus (installedVersion importVersion : Option String)
    (isLocalInstall updatePlugins : Bool) : Except Unit PluginStatus :=
  match importVersion.bind parseSemver with
  | none => .ok .INVALID
  | some iv =>
    match installedVersion with
    | none => .ok .INSTALLED
    | some s =>
      if s = "" then .ok .INSTALLED
      else
        match parseSemver s with
        | none => .error ()
        | some inst =>
          if verLt iv inst then .ok .OLDER
          else if verLt inst iv then
            if !updatePlugins && !isLocalInstall then .ok .UPDATE_BLOCKED
            else .ok .UPDATED
          else .ok .NO_CHANGE

/-- C5: `getPluginUpdateStatus` is a pure total function matching the
claimed decision table: `(undefined, "1.0.0", _, _) = INSTALLED`;
`("2.0.0","1.0.0",false,false) = OLDER`; `("1.0.0","1.0.0",_,_) = NO_CHANGE`;
`("1.0.0","2.0.0",false,false) = UPDATE_BLOCKED`;
`("1.0.0","2.0.0",false,true) = UPDATED`; `("1.0.0","2.0.0",true,false) = UPDATED`;
`("1.0.0","not-semver",_,_) = INVALID`. -/
theorem getPluginUpdateStatus_table :
    (∀ l u, getPluginUpdateStatus none (some "1.0.0") l u = .ok .INSTALLED) ∧
    getPluginUpdateStatus (some "2.0.0") (some "1.0.0") false false = .ok .OLDER ∧
    (∀ l u, getPluginUpdateStatus (some "1.0.0") (some "1.0.0") l u = .ok .NO_CHANGE) ∧
    getPluginUpdateStatus (some "1.0.0") (some "2.0.0") false false = .ok .UPDATE_BLOCKED ∧
    getPluginUpdateStatus (some "1.0.0") (some "2.0.0") false true = .ok .UPDATED ∧
    getPluginUpdateStatus (some "1.0.0") (some "2.0.0") true false = .ok .UPDATED ∧
    (∀ l u, getPluginUpdateStatus (some "1.0.0") (some "not-semver") l u = .ok .INVALID) := by
  decide

/-! ## `inferBuildAction` (static method vs utils function) -/

/-- Models `url.indexOf('/', 1)`. -/
def jsIndexOfFrom1 (url : String) : Int :=
  match (url.toList.drop 1).findIdx? (fun c => c = '/') with
  | some i => ((1 + i : Nat) : Int)
  | none => -1

/-- JavaScript `String.prototype.slice(start, stop)` (ASCII strings). -/
def jsSlice (s : String) (start : Int) (stop : Option Int) : String :=
  let n : Int := s.length
  let conv : Int → Nat := fun i => (if i < 0 then max (n + i) 0 else min i n).toNat
  let a := conv start
  let b := match stop with
    | none => s.length
    | some i => conv i
  ((s.toList.drop a).take (b - a)).asString

/-- Models `lib/utils/inferBuildAction.js`:
`const end = req.url.indexOf('/', 1); return req.url.slice(1, end === -1 ? undefined : end)`. -/
def inferBuildAction (url : String) : String :=
  let e := jsIndexOfFrom1 url
  jsSlice url 1 (if e = -1 then none else some e)

/-- Models `AdaptFrameworkUtils.inferBuildAction`:
`return req.url.slice(1, req.url.indexOf('/', 1))`. -/
def inferBuildActionStatic (url : String) : String :=
  jsSlice url 1 (some (jsIndexOfFrom1 url))

/-- C10 counterexample: on the URL `"/publish"` (no second `/`) the two
implementations differ — the static method passes the `-1` from `indexOf`
straight to `slice`, dropping the last character. -/
theorem inferBuildAction_not_equal :
    inferBuildAction "/publish" = "publish" ∧
    inferBuildActionStatic "/publish" = "publis" ∧
    inferBuildActionStatic "/publish" ≠ inferBuildAction "/publish" := by
  decide

/-- C10 (amended): the two implementations agree on every URL that does
contain a `/` at some index ≥ 1; they differ on URLs without one, where
the static method drops the final character. -/
theorem inferBuildAction_agree (url : String) (h : jsIndexOfFrom1 url ≠ -1) :
    inferBuildActionStatic url = inferBuildAction url := by
  simp only [inferBuildActionStatic, inferBuildAction]
  rw [if_neg h]

/-- Witness for `inferBuildAction_agree` at `"/publish/abc"`. -/
theorem inferBuildAction_agree_witness :
    jsIndexOfFrom1 "/publish/abc" ≠ -1 ∧
    inferBuildActionStatic "/publish/abc" = inferBuildAction "/publish/abc" :=
  ⟨by decide, inferBuildAction_agree "/publish/abc" (by decide)⟩

/-! ## `RemoveUndefTransform` (content migration) -/

/-- A JSON document value.  `null` is JS `null`; objects are
insertion-ordered field lists. -/
inductive JsonVal where
  | null
  | bool (b : Bool)
  | num (n : Int)
  | str (s : String)
  | arr (elems : List JsonVal)
  | obj (fields : List (String × JsonVal))

/-- Modelled from the spec: the source file
`lib/migrations/remove-undef.js` is not part of the provided sources (only
its unit tests are), so this follows the spec's words — "strip
`null`-valued properties recursively through nested objects, but never
descend into arrays" — matching the behaviours asserted by
`tests/migrations.spec.js` (non-null falsy values `0`, `false`, `""`
survive; arrays are kept verbatim, nulls inside them included). -/
def removeUndefFields : List (String × JsonVal) → List (String × JsonVal)
  | [] => []
  | (k, .obj gs) :: rest => (k, .obj (removeUndefFields gs)) :: removeUndefFields rest
  | (_, .null) :: rest => removeUndefFields rest
  | (k, v) :: rest => (k, v) :: removeUndefFields rest

/-- Modelled from the spec: the `RemoveUndefTransform` migration applied
to a whole document (a JS object; any other value is untouched). -/
def removeUndef : JsonVal → JsonVal
  | .obj fs => .obj (removeUndefFields fs)
  | v => v

/-- No `null`-valued property occurs in this field list or in any object
nested through object-valued fields (arrays are not inspected, matching
the never-descend-into-arrays rule). -/
def noNullFields : List (String × JsonVal) → Bool
  | [] => true
  | (_, .null) :: _ => false
  | (_, .obj gs) :: rest => noNullFields gs && noNullFields rest
  | _ :: rest => noNullFields rest

/-- Predicate `noNullFields` holds of a document after one `removeUndef` pass. -/
def noNulls : JsonVal → Bool
  | .obj fs => noNullFields fs
  | _ => true

theorem noNullFields_removeUndefFields (fs : List (String × JsonVal)) :
    noNullFields (removeUndefFields fs) = true := by
  induction fs using removeUndefFields.induct with
  | case1 => simp [removeUndefFields, noNullFields]
  | case2 k gs rest ihg ihr =>
    simp [removeUndefFields, noNullFields, ihg, ihr]
  | case3 fst rest ihr => simpa [removeUndefFields] using ihr
  | case4 k v rest hobj hnull ihr =>
    cases v <;> simp_all [removeUndefFields, noNullFields]

theorem removeUndefFields_idem (fs : List (String × JsonVal)) :
    removeUndefFields (removeUndefFields fs) = removeUndefFields fs := by
  induction fs using removeUndefFields.induct with
  | case1 => simp [removeUndefFields]
  | case2 k gs rest ihg ihr =>
    simp [removeUndefFields, ihg, ihr]
  | case3 fst rest ihr => simpa [removeUndefFields] using ihr
  | case4 k v rest hobj hnull ihr =>
    cases v <;> simp_all [removeUndefFields]

/-- C9: the `RemoveUndefTransform` migration is idempotent; after one
application no `null`-valued property remains in the document or any
object nested through objects; and any field that is neither `null` nor
an object — arrays (nulls inside them kept verbatim) and the falsy values
`0`, `false`, `""` included — is preserved in place, unchanged. -/
theorem removeUndef_spec :
    (∀ v, removeUndef (removeUndef v) = removeUndef v) ∧
    (∀ v, noNulls (removeUndef v) = true) ∧
    (∀ k v rest, v ≠ .null → (∀ gs, v ≠ .obj gs) →
      removeUndefFields ((k, v) :: rest) = (k, v) :: removeUndefFields rest) := by
  refine ⟨fun v => ?_, fun v => ?_, fun k v rest hn ho => ?_⟩
  · cases v <;> simp [removeUndef, removeUndefFields_idem]
  · cases v <;> simp [removeUndef, noNulls, noNullFields_removeUndefFields]
  · cases v with
    | null => exact absurd rfl hn
    | obj gs => exact absurd rfl (ho gs)
    | _ => simp [removeUndefFields]

/-- Witness for `removeUndef_spec`: the document
`{a: 0, b: null, arr: [null, 1], o: {c: null, d: false}}` keeps `0`,
`false` and the array (nulls inside it included) and loses exactly the
null-valued properties, and a second pass changes nothing. -/
theorem removeUndef_spec_witness :
    removeUndef (.obj [("a", .num 0), ("b", .null),
        ("arr", .arr [.null, .num 1]),
        ("o", .obj [("c", .null), ("d", .bool false)])]) =
      .obj [("a", .num 0), ("arr", .arr [.null, .num 1]),
        ("o", .obj [("d", .bool false)])] ∧
    removeUndef (removeUndef (.obj [("a", .num 0), ("b", .null),
        ("arr", .arr [.null, .num 1]),
        ("o", .obj [("c", .null), ("d", .bool false)])])) =
      removeUndef (.obj [("a", .num 0), ("b", .null),
        ("arr", .arr [.null, .num 1]),
        ("o", .obj [("c", .null), ("d", .bool false)])]) ∧
    noNulls (removeUndef (.obj [("a", .num 0), ("b", .null),
        ("arr", .arr [.null, .num 1]),
        ("o", .obj [("c", .null), ("d", .bool false)])])) = true ∧
    removeUndefFields [("arr", .arr [.null, .num 1])] =
      ("arr", JsonVal.arr [.null, .num 1]) :: removeUndefFields [] := by
  refine ⟨?_, removeUndef_spec.1 _, removeUndef_spec.2.1 _,
    removeUndef_spec.2.2 "arr" (.arr [.null, .num 1]) []
      (by intro hcon; exact JsonVal.noConfusion hcon)
      (by intro gs hcon; exact JsonVal.noConfusion hcon)⟩
  simp [removeUndef, removeUndefFields]

/-! ## Import stages as store-call traces

Each stage of `AdaptFrameworkImport#import()` is modelled as a function
producing the ordered list of calls it issues to the external stores
(content store, plugin registry via `installPlugins`, tag store, asset
store), plus its `statusReport` pushes, together with the error it throws,
if any.  Document payloads are abstracted to the identifying
string each call carries; parallel fan-outs (`Promise.all`) are listed in
iteration order, which no claim depends on.
-/

/-- The user-defined settings captured at construction. -/
structure Settings where
  isDryRun : Bool
  importContent : Bool
  importPlugins : Bool
  migrateContent : Bool
  updatePlugins : Bool
  removeSource : Bool
deriving DecidableEq, Repr

/-- A call issued by an import stage.  `count` on a status entry is the
`data.count` payload, `none` modelling a JS `undefined`. -/
inductive Action where
  | contentInsert (id : String)
  | contentUpdate (id : String)
  | installPlugins (name : String)
  | tagInsert (title : String)
  | assetInsert (idx : Nat)
  | writeBowerJson (name : String)
  | statusInfo (code : String) (count : Option Nat)
  | statusWarn (code : String)
deriving DecidableEq, Repr

/-- Mutating store calls in the sense of the dry-run contract: content
insert/update, `installPlugins`, tag insert, asset insert. -/
def Action.isStoreMutation : Action → Bool
  | .contentInsert _ => true
  | .contentUpdate _ => true
  | .installPlugins _ => true
  | .tagInsert _ => true
  | .assetInsert _ => true
  | _ => false

/-- Errors thrown by the stages.  `typeError` is a plain JavaScript
`TypeError` (calling an undefined method / method of `undefined`). -/
inductive ImpError where
  | typeError
  | FW_INVALID_VERSION (name version : String)
  | FW_IMPORT_MISSING_PLUGINS (plugins : List String)
  | FW_IMPORT_PLUGINS_FAILED
  | FW_IMPORT_UNEXPECTED_STRUCTURE
  | FW_IMPORT_CONTENT_FAILED
deriving DecidableEq, Repr

/-- A stage outcome: the issued calls, then the thrown error if any. -/
abbrev StageResult := List Action × Option ImpError

/-! ### `importTags` -/

/-- Inputs to `importTags`: the existing tag vocabulary (`tags.find()`
titles), the course's declared tags, and each asset's tag titles. -/
structure TagsInput where
  existingTagTitles : List String
  courseTags : List String
  assetTagLists : List (List String)
deriving DecidableEq, Repr

/-- Models `Set.prototype.add`: keeps insertion order and ignores duplicates. -/
def setAdd (s : List String) (x : String) : List String :=
  if x ∈ s then s else s ++ [x]

/-- Models `importTags`.  `newTags` is created as `new Set()`, but missing
course tags are collected with `newTags.push(t)` — not a `Set` method, so
the first missing course tag raises a `TypeError`.  On a dry run the
status entry reports `newTags.length`, which on a `Set` is `undefined`
(modelled `none`).  Otherwise each missing asset tag is inserted. -/
def importTags (inp : TagsInput) (isDryRun : Bool) : StageResult :=
  if inp.courseTags.any (fun t => !(inp.existingTagTitles.contains t)) then
    ([], some .typeError)
  else
    let newTags := inp.assetTagLists.foldl
      (fun s ts => ts.foldl
        (fun s t => if inp.existingTagTitles.contains t then s else setAdd s t) s)
      []
    if isDryRun then ([.statusInfo "TAGS_IMPORTED" none], none)
    else (newTags.map .tagInsert, none)

/-! ### `importCourseAssets` -/

/-- Models `importCourseAssets` over `assetData` (abstracted to its length, with
`insertOk` telling which `assets.insert` calls the store accepts).  On a
dry run every iteration returns before the insert; failures are recorded
as warnings and never thrown; `imagesImported` starts at the asset count
on dry runs and is incremented once per processed asset otherwise, so the
final count is the asset count either way. -/
def importCourseAssets (numAssets : Nat) (isDryRun : Bool)
    (insertOk : Nat → Bool) : StageResult :=
  let per := (List.range numAssets).flatMap (fun i =>
    if isDryRun then []
    else if insertOk i then [Action.assetInsert i]
    else [Action.assetInsert i, Action.statusWarn "ASSET_IMPORT_FAILED"])
  (per ++ [.statusInfo "ASSETS_IMPORTED_SUCCESSFULLY" (some numAssets)], none)

/-! ### `importCoursePlugins` -/

/-- A plugin the package declares as used (from its `bower.json`). -/
structure UsedPlugin where
  name : String
  version : String
  hasTargetAttribute : Bool
deriving DecidableEq, Repr

/-- An installed plugin from the live registry. -/
structure InstalledPlugin where
  name : String
  version : String
  isLocalInstall : Bool
deriving DecidableEq, Repr

/-- Outcome of one `contentplugin.installPlugins` call. -/
inductive InstallOutcome where
  | ok
  | eexist
  | fail
deriving DecidableEq, Repr

/-- What the classification loop decides for one used plugin. -/
inductive PluginDecision where
  | install
  | update
  | noAction
  | fatal (e : ImpError)
deriving DecidableEq, Repr

def findInstalled (installed : List InstalledPlugin) (n : String) :
    Option InstalledPlugin :=
  installed.find? (fun p => p.name = n)

/-- One iteration of the classification `forEach` in
`importCoursePlugins`: returns the status pushes, the decision, and
whether the managed-plugin-update-blocked flag is set by this plugin. -/
def classifyOne (installed : List InstalledPlugin) (updatePlugins : Bool)
    (p : UsedPlugin) : List Action × PluginDecision × Bool :=
  let instP := findInstalled installed p.name
  match parseSemver p.version, instP with
  | none, none => ([], .fatal (.FW_INVALID_VERSION p.name p.version), false)
  | vParsed, _ =>
    let warnActs := if vParsed.isSome then [] else [Action.statusWarn "INVALID_PLUGIN_VERSION"]
    let iv := vParsed.getD (0, 0, 0)
    match instP with
    | none => (warnActs, .install, false)
    | some ip =>
      match parseSemver ip.version with
      | none => (warnActs, .fatal .typeError, false)
      | some instV =>
        if verLt iv instV then
          (warnActs ++ [.statusInfo "PLUGIN_INSTALL_MIGRATING" none], .noAction, false)
        else if !updatePlugins then
          (warnActs, .noAction, !ip.isLocalInstall && verLt instV iv)
        else if iv = instV then
          (warnActs ++ [.statusInfo "PLUGIN_INSTALL_NOT_NEWER" none], .noAction, false)
        else
          (warnActs ++
            (if !ip.isLocalInstall then [Action.statusWarn "MANAGED_PLUGIN_INSTALL_SKIPPED"] else []),
           .update, false)

/-- The whole classification `forEach`: a thrown error aborts the loop;
otherwise collects `pluginsToInstall`, `pluginsToUpdate` and the blocked
flag. -/
def classifyPlugins (installed : List InstalledPlugin) (updatePlugins : Bool) :
    List UsedPlugin → List Action × List String × List String × Bool × Option ImpError
  | [] => ([], [], [], false, none)
  | p :: rest =>
    let r := classifyOne installed updatePlugins p
    match r.2.1 with
    | .fatal e => (r.1, [], [], r.2.2, some e)
    | d =>
      let rr := classifyPlugins installed updatePlugins rest
      (r.1 ++ rr.1,
       (if d = .install then [p.name] else []) ++ rr.2.1,
       (if d = .update then [p.name] else []) ++ rr.2.2.1,
       r.2.2 || rr.2.2.2.1,
       rr.2.2.2.2)

/-- The install block of `importCoursePlugins` (entered only when
`pluginsToInstall` is non-empty).  When `importPlugins` is false: on a
dry run the code runs `this.statusReport.error.push(...)`, but
`statusReport` has only `info`/`warn` arrays, so `.error` is `undefined`
and the call raises a `TypeError`; otherwise it throws
`FW_IMPORT_MISSING_PLUGINS`.  Otherwise each queued plugin gets its
`bower.json` patched with an inferred `targetAttribute` when missing,
`installPlugins` is called unless this is a dry run, and non-`EEXIST`
installer failures accumulate into `FW_IMPORT_PLUGINS_FAILED` after all
attempts. -/
def installPhase (used : List UsedPlugin) (s : Settings)
    (toInstall toUpdate : List String)
    (installOutcome : String → InstallOutcome) : StageResult :=
  if toInstall = [] then ([], none)
  else if !s.importPlugins then
    if s.isDryRun then ([], some .typeError)
    else ([], some (.FW_IMPORT_MISSING_PLUGINS toInstall))
  else
    let per := (toInstall ++ toUpdate).map (fun n =>
      let hasTA := (((used.find? (fun u => u.name = n)).map
        (fun u => u.hasTargetAttribute)).getD true)
      let pre := if hasTA then [] else [Action.writeBowerJson n]
      if s.isDryRun then (pre ++ [Action.statusInfo "INSTALL_PLUGIN" none], false)
      else
        match installOutcome n with
        | .ok => (pre ++ [Action.installPlugins n, Action.statusInfo "INSTALL_PLUGIN" none], false)
        | .eexist => (pre ++ [Action.installPlugins n], false)
        | .fail => (pre ++ [Action.installPlugins n], true))
    ((per.map (fun r => r.1)).flatten,
     if per.any (fun r => r.2) then some .FW_IMPORT_PLUGINS_FAILED else none)

/-- Models `importCoursePlugins`: classification pass, the batch
`MANAGED_PLUGIN_UPDATE_DISABLED` warning, then the install block. -/
def importCoursePlugins (used : List UsedPlugin)
    (installed : List InstalledPlugin) (s : Settings)
    (installOutcome : String → InstallOutcome) : StageResult :=
  let c := classifyPlugins installed s.updatePlugins used
  match c.2.2.2.2 with
  | some e => (c.1, some e)
  | none =>
    let mbActs := if c.2.2.2.1 then [Action.statusWarn "MANAGED_PLUGIN_UPDATE_DISABLED"] else []
    let i := installPhase used s c.2.1 c.2.2.1 installOutcome
    (c.1 ++ mbActs ++ i.1, i.2)

/-! ### `importCourseData` and the stage pipeline -/

/-- Models `importCourseData`: inserts the course, the config, re-updates the
course, then inserts the sorted content levels in order; per-document
insert failures are collected and thrown as one
`FW_IMPORT_CONTENT_FAILED` after all documents were attempted. -/
def importCourseData (courseId : String) (objs : List ContentObject)
    (insertOk : String → Bool) : StageResult :=
  let pre := [Action.contentInsert courseId, Action.contentInsert "config",
    Action.contentUpdate courseId]
  match getSortedData courseId objs with
  | .error _ => (pre, some .FW_IMPORT_UNEXPECTED_STRUCTURE)
  | .ok (sorted, _) =>
    let flat := sorted.flatten
    (pre ++ flat.map .contentInsert,
     if flat.any (fun i => !insertOk i) then some .FW_IMPORT_CONTENT_FAILED else none)

/-- The package data consumed by the store-facing stages. -/
structure ImportInput where
  tagsInput : TagsInput
  numAssets : Nat
  usedPlugins : List UsedPlugin
  installedPlugins : List InstalledPlugin
  courseId : String
  contentObjects : List ContentObject

/-- Run one gated task of the `import()` task list: skipped unless its
gate holds, and not reached if a previous stage threw. -/
def seqStage (acc : StageResult) (gate : Bool) (stage : Unit → StageResult) :
    StageResult :=
  match acc.2 with
  | some _ => acc
  | none =>
    if gate then
      let r := stage ()
      (acc.1 ++ r.1, r.2)
    else acc

/-- The store-facing part of `import()`'s fixed task list, with the exact
gates of the source (`prepare`, the load stages, the hooks,
`migrateCourseData` and `generateSummary` issue no content / plugin /
tag / asset store writes and are omitted). -/
def runImport (s : Settings) (inp : ImportInput)
    (installOutcome : String → InstallOutcome) (assetOk : Nat → Bool)
    (contentOk : String → Bool) : StageResult :=
  let r1 := seqStage ([], none) s.importContent
    (fun _ => importTags inp.tagsInput s.isDryRun)
  let r2 := seqStage r1 s.importContent
    (fun _ => importCourseAssets inp.numAssets s.isDryRun assetOk)
  let r3 := seqStage r2 (s.isDryRun && s.importPlugins)
    (fun _ => importCoursePlugins inp.usedPlugins inp.installedPlugins s installOutcome)
  let r4 := seqStage r3 (!s.isDryRun && s.importContent)
    (fun _ => importCoursePlugins inp.usedPlugins inp.installedPlugins s installOutcome)
  seqStage r4 (!s.isDryRun && s.importContent)
    (fun _ => importCourseData inp.courseId inp.contentObjects contentOk)

/-! ### Dry-run and error-path properties of the stages -/

/-- C7: FALSE of the code — on a dry run `importTags` is claimed to
complete without error and report the count of missing tags, but
`newTags` is a JS `Set` collected with the array method `.push`, so a
course declaring a tag absent from the vocabulary raises a `TypeError`;
and even when only asset tags are missing, the reported count is
`newTags.length`, which is `undefined` on a `Set` (it is never the number
of missing tags). -/
theorem importTags_dry_run_bug :
    importTags ⟨[], ["newtag"], []⟩ true = ([], some .typeError) ∧
    importTags ⟨[], [], [["newtag"]]⟩ true =
      ([.statusInfo "TAGS_IMPORTED" none], none) ∧
    Action.statusInfo "TAGS_IMPORTED" (some 1) ∉ (importTags ⟨[], [], [["newtag"]]⟩ true).1 := by
  decide

/-- C6: FALSE of the code for the dry-run half — with a used plugin
missing from the registry and `importPlugins` false, a real run throws
`FW_IMPORT_MISSING_PLUGINS` naming the plugin (as claimed), but a dry run
is claimed to record a non-fatal status entry and complete, whereas the
code runs `this.statusReport.error.push(...)` on the non-existent
`statusReport.error` and raises a `TypeError`. -/
theorem importCoursePlugins_missing_plugin_bug :
    importCoursePlugins [⟨"adapt-contrib-foo", "1.0.0", true⟩] []
        ⟨true, true, false, true, false, true⟩ (fun _ => .ok) =
      ([], some .typeError) ∧
    importCoursePlugins [⟨"adapt-contrib-foo", "1.0.0", true⟩] []
        ⟨false, true, false, true, false, true⟩ (fun _ => .ok) =
      ([], some (.FW_IMPORT_MISSING_PLUGINS ["adapt-contrib-foo"])) := by
  decide

/-- A stage trace containing no mutating store call. -/
def traceClean (r : StageResult) : Bool :=
  r.1.all (fun a => !a.isStoreMutation)

theorem importTags_dry_clean (inp : TagsInput) :
    traceClean (importTags inp true) = true := by
  unfold importTags traceClean
  split
  · rfl
  · simp [Action.isStoreMutation]

theorem importCourseAssets_dry_clean (n : Nat) (ok : Nat → Bool) :
    traceClean (importCourseAssets n true ok) = true := by
  simp [importCourseAssets, traceClean, Action.isStoreMutation]

theorem classifyOne_clean (installed : List InstalledPlugin) (up : Bool)
    (p : UsedPlugin) :
    (classifyOne installed up p).1.all (fun a => !a.isStoreMutation) = true := by
  unfold classifyOne
  rcases parseSemver p.version with _ | v <;>
    rcases findInstalled installed p.name with _ | ip <;>
      simp only [] <;>
      first
        | rfl
        | (rcases parseSemver ip.version with _ | iv <;>
            simp only [] <;>
            repeat' first
              | rfl
              | split <;> simp_all [Action.isStoreMutation])

theorem classifyPlugins_clean (installed : List InstalledPlugin) (up : Bool)
    (used : List UsedPlugin) :
    (classifyPlugins installed up used).1.all (fun a => !a.isStoreMutation) = true := by
  induction used with
  | nil => rfl
  | cons p rest ih =>
    have h1 := classifyOne_clean installed up p
    cases hd : (classifyOne installed up p).2.1 <;>
      simp_all [classifyPlugins, List.all_append]

theorem installPhase_dry_clean (used : List UsedPlugin) (s : Settings)
    (ti tu : List String) (io : String → InstallOutcome)
    (h : s.isDryRun = true) :
    traceClean (installPhase used s ti tu io) = true := by
  by_cases hti : ti = []
  · simp [installPhase, hti, traceClean]
  · by_cases hip : s.importPlugins = true
    · unfold installPhase traceClean
      simp only [if_neg hti, hip, Bool.not_true, Bool.false_eq_true, if_false, h,
        Bool.true_eq_false, List.all_eq_true, List.mem_flatten, List.mem_map]
      rintro a ⟨l, ⟨r, ⟨n, hn, rfl⟩, rfl⟩, ha⟩
      simp only [if_true, Bool.true_eq_false] at ha
      rcases List.mem_append.mp ha with h1 | h1
      · revert h1
        split
        · intro h0
          exact absurd h0 (List.not_mem_nil a)
        · intro h0
          rcases List.mem_singleton.mp h0 with rfl
          rfl
      · rcases List.mem_singleton.mp h1 with rfl
        rfl
    · unfold installPhase traceClean
      rw [if_neg hti]
      have : (!s.importPlugins) = true := by
        cases hb : s.importPlugins
        · rfl
        · exact absurd hb hip
      rw [if_pos this, if_pos h]
      rfl

theorem importCoursePlugins_dry_clean (used : List UsedPlugin)
    (installed : List InstalledPlugin) (s : Settings)
    (io : String → InstallOutcome) (h : s.isDryRun = true) :
    traceClean (importCoursePlugins used installed s io) = true := by
  have hc := classifyPlugins_clean installed s.updatePlugins used
  have hi := installPhase_dry_clean used s
    (classifyPlugins installed s.updatePlugins used).2.1
    (classifyPlugins installed s.updatePlugins used).2.2.1 io h
  unfold traceClean at hi
  cases he : (classifyPlugins installed s.updatePlugins used).2.2.2.2 with
  | some e =>
    unfold traceClean importCoursePlugins
    simp only [he, hc]
  | none =>
    unfold traceClean importCoursePlugins
    simp only [he, List.all_append, hc, hi, Bool.and_true, Bool.true_and]
    split <;> rfl

theorem seqStage_gate_false (acc : StageResult) (f : Unit → StageResult) :
    seqStage acc false f = acc := by
  unfold seqStage
  cases h : acc.2 <;> simp

theorem seqStage_clean (acc : StageResult) (gate : Bool) (f : Unit → StageResult)
    (hacc : traceClean acc = true) (hf : ∀ u, traceClean (f u) = true) :
    traceClean (seqStage acc gate f) = true := by
  unfold seqStage
  cases h : acc.2 with
  | some e => exact hacc
  | none =>
    cases gate with
    | false => exact hacc
    | true =>
      unfold traceClean at hacc hf ⊢
      simp [List.all_append, hacc, hf ()]

/-- C4: on a dry run no mutating store call is ever issued — no content
insert/update, no `installPlugins`, no tag insert, no asset insert —
whatever the package contents, registry state and store behaviours. -/
theorem dryRun_no_store_mutations (s : Settings) (inp : ImportInput)
    (io : String → InstallOutcome) (ao : Nat → Bool) (co : String → Bool)
    (h : s.isDryRun = true) :
    traceClean (runImport s inp io ao co) = true := by
  unfold runImport
  have hg : (!s.isDryRun && s.importContent) = false := by rw [h]; rfl
  rw [hg, seqStage_gate_false, seqStage_gate_false]
  apply seqStage_clean
  · apply seqStage_clean
    · apply seqStage_clean
      · rfl
      · intro u
        rw [h]
        exact importTags_dry_clean inp.tagsInput
    · intro u
      rw [h]
      exact importCourseAssets_dry_clean inp.numAssets ao
  · intro u
    exact importCoursePlugins_dry_clean inp.usedPlugins inp.installedPlugins s io h

/-- A dry run with content, plugins and tags to import, a plugin needing
install and another needing (blocked) update. -/
def sampleDrySettings : Settings := ⟨true, true, true, true, false, true⟩

/-- Sample package for the dry-run witness. -/
def sampleImportInput : ImportInput :=
  { tagsInput := ⟨["existing"], ["existing"], [["new-asset-tag"]]⟩
    numAssets := 2
    usedPlugins := [⟨"adapt-contrib-text", "2.0.0", true⟩, ⟨"adapt-contrib-new", "1.0.0", false⟩]
    installedPlugins := [⟨"adapt-contrib-text", "1.0.0", false⟩]
    courseId := "course1"
    contentObjects := [⟨"p1", "course1"⟩] }

/-- Witness for `dryRun_no_store_mutations` on a concrete dry run. -/
theorem dryRun_no_store_mutations_witness :
    sampleDrySettings.isDryRun = true ∧
    traceClean (runImport sampleDrySettings sampleImportInput
      (fun _ => .ok) (fun _ => true) (fun _ => true)) = true :=
  ⟨rfl, dryRun_no_store_mutations sampleDrySettings sampleImportInput
    (fun _ => .ok) (fun _ => true) (fun _ => true) rfl⟩

/-! ## `cleanUp` and the compensation path of `import()`

`import()` captures any stage error, always calls `cleanUp(error)` and
then rethrows the captured error.  `cleanUp` builds its task list (file
removal plus, on error, the compensation deletes), awaits them with
`Promise.allSettled` inside a `try/catch` that ignores everything, so no
compensation outcome can alter the propagated error.
-/

/-- The rollback bookkeeping accumulated on the importer instance by the
time `cleanUp` runs. -/
structure RollbackState where
  removeSource : Bool
  newContentPluginIds : List String
  updatedContentPluginNames : List String
  assetMapIds : List String
  newTagIds : List String
  courseDbId : Option String
deriving DecidableEq, Repr

/-- A task created by `cleanUp` (or `restoreUpdatedPlugins`). -/
inductive CompAction where
  | rmSourceDir
  | uninstallPlugin (id : String)
  | restorePluginFromBackup (name : String)
  | deleteAsset (id : String)
  | deleteTag (id : String)
  | deleteContent (courseId : String)
  | deleteCourseAssets (courseId : String)
deriving DecidableEq, Repr

/-- The task list `cleanUp(error)` creates: nothing at all when
`removeSource` is false; otherwise the working-directory removal and, when
an error is present, the compensation tasks — uninstall every newly
installed plugin, restore every updated plugin from backup, delete every
imported asset, delete every newly created tag and, when the partially
imported course's new id parses, delete its content and course-asset
documents. -/
def cleanUpActions (st : RollbackState) (hasError : Bool) : List CompAction :=
  if !st.removeSource then []
  else
    [.rmSourceDir] ++
      (if hasError then
        st.newContentPluginIds.map .uninstallPlugin ++
        st.updatedContentPluginNames.map .restorePluginFromBackup ++
        st.assetMapIds.map .deleteAsset ++
        st.newTagIds.map .deleteTag ++
        (match st.courseDbId with
         | some cid => [.deleteContent cid, .deleteCourseAssets cid]
         | none => [])
      else [])

/-- The tail of `import()`: it calls `cleanUp(error)` — whose tasks are
settled with `Promise.allSettled` and whose failures (`compFails`) are
swallowed — and then rethrows exactly the captured error.  Returns the
settled compensation tasks with their outcomes, and what the caller
receives. -/
def importFinish (st : RollbackState) (error : Option ImpError)
    (compFails : CompAction → Bool) :
    List (CompAction × Bool) × Option ImpError :=
  ((cleanUpActions st error.isSome).map (fun a => (a, compFails a)), error)

/-- State after a run that installed one plugin, updated one, imported
one asset, created one tag and inserted course content — but was
constructed with `removeSource: false`. -/
def noRemoveSourceState : RollbackState :=
  { removeSource := false
    newContentPluginIds := ["plugin-id-1"]
    updatedContentPluginNames := ["adapt-contrib-text"]
    assetMapIds := ["asset-1"]
    newTagIds := ["tag-1"]
    courseDbId := some "course-db-1" }

/-- C3 counterexample: the claim quantifies over every failed run, but
when the run was configured with `removeSource: false`, `cleanUp` returns
before creating any task — the newly installed plugin is not uninstalled,
nothing is restored or deleted, even though the run ended in an error
with all four kinds of side effects recorded. -/
theorem cleanUp_skipped_without_removeSource :
    noRemoveSourceState.newContentPluginIds = ["plugin-id-1"] ∧
    noRemoveSourceState.updatedContentPluginNames = ["adapt-contrib-text"] ∧
    noRemoveSourceState.assetMapIds = ["asset-1"] ∧
    noRemoveSourceState.newTagIds = ["tag-1"] ∧
    noRemoveSourceState.courseDbId = some "course-db-1" ∧
    cleanUpActions noRemoveSourceState true = [] ∧
    CompAction.uninstallPlugin "plugin-id-1" ∉ cleanUpActions noRemoveSourceState true ∧
    (importFinish noRemoveSourceState (some .FW_IMPORT_CONTENT_FAILED) (fun _ => false)).1 = [] := by
  decide

/-- C3 (amended): provided `removeSource` is true (its default), a run
that ends with an error after plugins were installed/updated, assets
inserted, tags created and content inserted compensates completely —
every newly installed plugin is uninstalled, every updated plugin
restored from backup, every imported asset and newly created tag deleted,
and the content and course-asset documents of the partially imported
course deleted — and the caller receives exactly the original error, for
every possible pattern of compensation-step failures. -/
theorem cleanUp_compensates (st : RollbackState) (e : ImpError) (cid : String)
    (compFails : CompAction → Bool)
    (hrs : st.removeSource = true) (hcid : st.courseDbId = some cid) :
    (importFinish st (some e) compFails).2 = some e ∧
    (∀ p ∈ st.newContentPluginIds,
      CompAction.uninstallPlugin p ∈ cleanUpActions st true) ∧
    (∀ n ∈ st.updatedContentPluginNames,
      CompAction.restorePluginFromBackup n ∈ cleanUpActions st true) ∧
    (∀ a ∈ st.assetMapIds, CompAction.deleteAsset a ∈ cleanUpActions st true) ∧
    (∀ t ∈ st.newTagIds, CompAction.deleteTag t ∈ cleanUpActions st true) ∧
    CompAction.deleteContent cid ∈ cleanUpActions st true ∧
    CompAction.deleteCourseAssets cid ∈ cleanUpActions st true := by
  have hacts : cleanUpActions st true =
      [.rmSourceDir] ++
        (st.newContentPluginIds.map .uninstallPlugin ++
         st.updatedContentPluginNames.map .restorePluginFromBackup ++
         st.assetMapIds.map .deleteAsset ++
         st.newTagIds.map .deleteTag ++
         [.deleteContent cid, .deleteCourseAssets cid]) := by
    unfold cleanUpActions
    rw [hrs, hcid]
    rfl
  refine ⟨rfl, ?_, ?_, ?_, ?_, ?_, ?_⟩ <;>
    simp [hacts, List.mem_append, List.mem_map]

/-- State for the `cleanUp_compensates` witness: a failed run with every
kind of recorded side effect and `removeSource` left at its default. -/
def failedRunState : RollbackState :=
  { removeSource := true
    newContentPluginIds := ["plugin-id-1"]
    updatedContentPluginNames := ["adapt-contrib-text"]
    assetMapIds := ["asset-1", "asset-2"]
    newTagIds := ["tag-1"]
    courseDbId := some "course-db-1" }

/-- Witness for `cleanUp_compensates` at a concrete failed run, with a
compensation-failure oracle that fails every step. -/
theorem cleanUp_compensates_witness :
    failedRunState.removeSource = true ∧
    failedRunState.courseDbId = some "course-db-1" ∧
    ((importFinish failedRunState (some .FW_IMPORT_CONTENT_FAILED) (fun _ => true)).2 =
        some .FW_IMPORT_CONTENT_FAILED ∧
      (∀ p ∈ failedRunState.newContentPluginIds,
        CompAction.uninstallPlugin p ∈ cleanUpActions failedRunState true) ∧
      (∀ n ∈ failedRunState.updatedContentPluginNames,
        CompAction.restorePluginFromBackup n ∈ cleanUpActions failedRunState true) ∧
      (∀ a ∈ failedRunState.assetMapIds,
        CompAction.deleteAsset a ∈ cleanUpActions failedRunState true) ∧
      (∀ t ∈ failedRunState.newTagIds,
        CompAction.deleteTag t ∈ cleanUpActions failedRunState true) ∧
      CompAction.deleteContent "course-db-1" ∈ cleanUpActions failedRunState true ∧
      CompAction.deleteCourseAssets "course-db-1" ∈ cleanUpActions failedRunState true) :=
  ⟨rfl, rfl,
    cleanUp_compensates failedRunState .FW_IMPORT_CONTENT_FAILED "course-db-1"
      (fun _ => true) rfl rfl⟩

end AdaptFramework
